import Mathlib

/-!
Shallow embedding of the Meme-Factory application core
(`src/components/Main.jsx`): the field store and its handlers, the
script loader, the drag synchronizer effect, and the export pipeline.

JavaScript objects are open string-keyed maps, so a text field is
modelled as a record of the seven attributes the source creates
(`id`, `text`, `font`, `color`, `size`, `x`, `y`, see Main.jsx:75,139)
plus an `extra` association list for any further properties an object
spread `{ ...field, [key]: value }` may attach.  Attribute values are
JavaScript primitives (strings or numbers).
-/

/-- A JavaScript primitive value as used by the field records: a string
or a number.  TextField ids and sizes are integers in the source. -/
inductive JSValue where
  | str (s : String)
  | num (n : Int)
deriving DecidableEq, Repr

/-- One text-field record, as created at Main.jsx:75-76 (the two seed
fields) and Main.jsx:139 (`handleAddField`).  `extra` holds properties
beyond the seven the source ever creates, because a JS object spread
with a computed key can attach arbitrary keys. -/
structure TextField where
  id : JSValue
  text : JSValue
  font : JSValue
  color : JSValue
  size : JSValue
  x : JSValue
  y : JSValue
  extra : List (String × JSValue)
deriving DecidableEq, Repr

/-- Setting a key on the `extra` association list, mirroring JS object
spread semantics: an existing key is overwritten in place, a new key is
appended at the end. -/
def extraSet : List (String × JSValue) → String → JSValue → List (String × JSValue)
  | [], k, v => [(k, v)]
  | (k', v') :: rest, k, v =>
      if k' = k then (k, v) :: rest else (k', v') :: extraSet rest k v

/-- `{ ...field, [key]: value }` (Main.jsx:145): the computed key is set
on a copy of the field.  A key naming one of the seven created
attributes overwrites it; any other key lands in `extra`. -/
def TextField.setAttr (f : TextField) (k : String) (v : JSValue) : TextField :=
  if k = "id" then { f with id := v }
  else if k = "text" then { f with text := v }
  else if k = "font" then { f with font := v }
  else if k = "color" then { f with color := v }
  else if k = "size" then { f with size := v }
  else if k = "x" then { f with x := v }
  else if k = "y" then { f with y := v }
  else { f with extra := extraSet f.extra k v }

/-- Initial background image URL (Main.jsx:10). -/
def INITIAL_IMAGE_URL : String := "https://i.imgflip.com/1bij.jpg"

/-- The two seed fields of the initial state (Main.jsx:74-77). -/
def initialFields : List TextField :=
  [ { id := .num 1, text := .str "One does not simply", font := .str "Anton",
      color := .str "#ffffff", size := .num 40, x := .num 100, y := .num 50, extra := [] },
    { id := .num 2, text := .str "Fix a bug on Friday", font := .str "Anton",
      color := .str "#ffffff", size := .num 40, x := .num 100, y := .num 300, extra := [] } ]

/-- The reactive application state the handlers mutate: template list
(`allMemes`, urls only), background image (`meme.imageUrl`, flattened),
field store and active selection (Main.jsx:72-78). -/
structure AppState where
  allMemes : List String
  imageUrl : String
  fields : List TextField
  activeFieldId : Option JSValue
deriving DecidableEq, Repr

/-- The state at process start (Main.jsx:72-78). -/
def initialState : AppState :=
  { allMemes := [], imageUrl := INITIAL_IMAGE_URL,
    fields := initialFields, activeFieldId := none }

/-- `handleSelectMeme` (Main.jsx:127-130): replace the background
wholesale and clear the active field. -/
def handleSelectMeme (s : AppState) (url : String) : AppState :=
  { s with imageUrl := url, activeFieldId := none }

/-- `handleRandomMeme` (Main.jsx:132-136): no-op on an empty gallery,
otherwise select the template at the random index
(`Math.floor(Math.random() * allMemes.length)`, always `< length`). -/
def handleRandomMeme (s : AppState) (idx : Nat) : AppState :=
  if s.allMemes.length = 0 then s
  else handleSelectMeme s (s.allMemes.getD idx "")

/-- `handleAddField` (Main.jsx:138-142).  `now` is the value returned
by `Date.now()` for this invocation; the new field is appended and
becomes active. -/
def handleAddField (s : AppState) (now : Int) : AppState :=
  { s with
    fields := s.fields ++
      [ { id := .num now, text := .str "New Text", font := .str "Anton",
          color := .str "#ffffff", size := .num 40, x := .num 150, y := .num 150,
          extra := [] } ],
    activeFieldId := some (.num now) }

/-- `handleFieldChange` (Main.jsx:144-146): map over the store,
spreading the new key onto every field whose id matches. -/
def handleFieldChange (s : AppState) (id : JSValue) (k : String) (v : JSValue) : AppState :=
  { s with fields := s.fields.map (fun f => if f.id == id then f.setAttr k v else f) }

/-- `handleDeleteField` (Main.jsx:148-151): filter out every field with
the given id; clear activation only when the deleted id was active. -/
def handleDeleteField (s : AppState) (id : JSValue) : AppState :=
  { s with
    fields := s.fields.filter (fun f => !(f.id == id)),
    activeFieldId := if s.activeFieldId = some id then none else s.activeFieldId }

/-- A file handed to the upload input. -/
structure UploadFile where
  name : String
  content : String
deriving DecidableEq, Repr

/-- The `FileReader` read started by `handleImageUpload`; its
`onloadend` callback later replaces the background. -/
structure PendingRead where
  file : UploadFile
deriving DecidableEq, Repr

/-- `handleImageUpload` (Main.jsx:153-160): with no file selected the
handler returns before touching anything; with a file it starts an
asynchronous read and synchronously clears the active field.  The
background is only replaced later, when the read completes. -/
def handleImageUpload (s : AppState) (file : Option UploadFile) :
    AppState × Option PendingRead :=
  match file with
  | none => (s, none)
  | some f => ({ s with activeFieldId := none }, some ⟨f⟩)

/-- The `reader.onloadend` callback (Main.jsx:157): replace the
background with the data URL produced by the read. -/
def completeRead (s : AppState) (dataUrl : String) : AppState :=
  { s with imageUrl := dataUrl }

/-- The `onDragEnd` callback of a drag behavior (Main.jsx:107-114): it
writes the behavior's final offsets into the store entry whose id
equals the field id captured at attach time (`field.id` in the closure,
not the live state). -/
def onDragEnd (fields : List TextField) (fid : JSValue) (nx ny : Int) : List TextField :=
  fields.map (fun item => if item.id == fid then { item with x := .num nx, y := .num ny } else item)

/-- One field-store operation of the kind claim C2 quantifies over.
An `add` carries the `Date.now()` value observed by that invocation of
`handleAddField`. -/
inductive FieldOp where
  | add (now : Int)
  | remove (id : JSValue)
deriving DecidableEq, Repr

/-- Apply one operation to the state. -/
def applyOp (s : AppState) : FieldOp → AppState
  | .add now => handleAddField s now
  | .remove id => handleDeleteField s id

/-- Run a sequence of operations. -/
def runOps : AppState → List FieldOp → AppState
  | s, [] => s
  | s, op :: rest => runOps (applyOp s op) rest

/-- The clock model for `Date.now()` (Main.jsx:139): the trace is
well-clocked when each `add` generates an id not currently present in
the store.  Two adds within the same millisecond would violate this;
the source relies on it for id uniqueness. -/
def freshAdds : AppState → List FieldOp → Bool
  | _, [] => true
  | s, .add now :: rest =>
      !(s.fields.any (fun f => f.id == JSValue.num now)) && freshAdds (applyOp s (.add now)) rest
  | s, .remove id :: rest => freshAdds (applyOp s (.remove id)) rest

/-- Number of `add` operations in a trace. -/
def addCount (ops : List FieldOp) : Nat :=
  ops.countP (fun op => match op with | .add _ => true | .remove _ => false)

/-- Number of removes that found their id in the store at the moment
they ran (the "successful" removes of claim C2). -/
def removeOkCount : AppState → List FieldOp → Nat
  | _, [] => 0
  | s, .add now :: rest => removeOkCount (applyOp s (.add now)) rest
  | s, .remove id :: rest =>
      (if s.fields.any (fun f => f.id == id) then 1 else 0) + removeOkCount (applyOp s (.remove id)) rest

/-!
Script loader model (`useScriptLoader`, Main.jsx:19-44).  The effect
runs once per process (empty dependency array, Main.jsx:41), starting
all loads in parallel; `Promise.all` resolves only after every script
has resolved and rejects on the first rejection, in which case the
`catch` logs and `setLoaded(true)` is never reached.  Each script's
load attempt is summarised by an outcome: whether it succeeded and at
what instant it settled.
-/

/-- The settled outcome of one script load. -/
structure ScriptOutcome where
  url : String
  time : Nat
  ok : Bool
deriving DecidableEq, Repr

/-- `Promise.all` succeeds iff every script load succeeded. -/
def scriptsAllOk (outs : List ScriptOutcome) : Bool :=
  outs.all (fun o => o.ok)

/-- The instant at which the last script settles: the join point at
which `Promise.all` can resolve. -/
def scriptsSettleTime (outs : List ScriptOutcome) : Nat :=
  outs.foldr (fun o acc => max o.time acc) 0

/-- The readiness flag over process time: `loaded` is true at instant
`t` iff every load succeeded and the join point has passed. -/
def loaderFlag (outs : List ScriptOutcome) (t : Nat) : Bool :=
  scriptsAllOk outs && decide (scriptsSettleTime outs ≤ t)

/-- The `catch` branch (Main.jsx:40) logs exactly when some load
failed. -/
def loaderErrorLogged (outs : List ScriptOutcome) : Bool :=
  !scriptsAllOk outs

/-!
Drag synchronizer model (the `useEffect` at Main.jsx:92-124).  The
effect body kills every instance held in `draggableInstancesRef` and
creates one new instance per field, targeting the class selector
`.draggable-<index>` and capturing the field's id.  React re-runs the
effect when its dependency triple `[fields.length, meme.imageUrl,
librariesLoaded]` (Main.jsx:124) differs from the previous render's,
and always on mount.
-/

/-- One created drag behavior: the index selector it was attached to
and the field id captured by its callbacks. -/
structure DragInstance where
  selectorIndex : Nat
  fieldId : JSValue
deriving DecidableEq, Repr

/-- The pool of behaviors, split into the mutually exclusive live
instances (the current `draggableInstancesRef` contents) and the ones
already killed. -/
structure DragWorld where
  alive : List DragInstance
  killed : List DragInstance
deriving DecidableEq, Repr

/-- The creation loop (Main.jsx:102-117): one instance per field, in
field-array order, keyed by index. -/
def mkInstances (fields : List TextField) : List DragInstance :=
  fields.enum.map (fun p => { selectorIndex := p.1, fieldId := p.2.id })

/-- One run of the effect body: an early return when the libraries are
not loaded (Main.jsx:93); otherwise every live instance is killed
(Main.jsx:98-99) and a fresh instance is created per field. -/
def runDragEffect (w : DragWorld) (loaded : Bool) (fields : List TextField) : DragWorld :=
  if loaded then
    { alive := mkInstances fields, killed := w.killed ++ w.alive }
  else w

/-- What one render exposes to the effect: the field list, the
background url and the library-readiness flag. -/
structure RenderState where
  fields : List TextField
  imageUrl : String
  loaded : Bool

/-- The dependency triple of the effect (Main.jsx:124). -/
def dragDeps (r : RenderState) : Nat × String × Bool :=
  (r.fields.length, r.imageUrl, r.loaded)

/-- Process a sequence of renders: the effect runs on mount
(`prev = none`) and whenever the dependency triple changed. -/
def runRenders : DragWorld → Option (Nat × String × Bool) → List RenderState → DragWorld
  | w, _, [] => w
  | w, prev, r :: rest =>
      let w' := if prev = some (dragDeps r) then w else runDragEffect w r.loaded r.fields
      runRenders w' (some (dragDeps r)) rest

/-- The empty behavior pool at mount time (`useRef([])`, Main.jsx:69). -/
def initialDragWorld : DragWorld :=
  { alive := [], killed := [] }

/-!
Export pipeline model (`handleDownloadMeme`, Main.jsx:162-176).  The
handler's observable behavior is a sequence of events; the environment
records whether `window.html2canvas` is present, whether the capture
region ref is attached when the timeout fires, whether the capture
promise resolves, and the `Date.now()` value used for the file name.
-/

/-- The environment an export invocation sees. -/
structure ExportEnv where
  html2canvasLoaded : Bool
  memeRefPresent : Bool
  captureOk : Bool
  now : Int
deriving DecidableEq, Repr

/-- Observable events of one export invocation, in order. -/
inductive ExportEvent where
  | logError (msg : String)
  | clearActive
  | settleDelay (ms : Nat)
  | capture (useCORS : Bool) (backgroundColor : Option String)
  | download (fileName : String)
deriving DecidableEq, Repr

/-- `handleDownloadMeme` (Main.jsx:162-176) as its event trace: guard
on `html2canvas`, clear the selection, wait 150 ms, guard on the ref,
capture with `useCORS: true` and `backgroundColor: null`, then either
download `meme-<timestamp>.png` or log the capture error. -/
def handleDownloadMeme (env : ExportEnv) : List ExportEvent :=
  if !env.html2canvasLoaded then [.logError "html2canvas not loaded"]
  else
    .clearActive :: .settleDelay 150 ::
      (if !env.memeRefPresent then []
       else .capture true none ::
         (if env.captureOk then
            [.download ("meme-" ++ toString env.now ++ ".png")]
          else [.logError "Canvas capture error:"]))

/-!
Claim theorems.
-/

/-- Claim C1, counterexample: `updateField` with the unknown attribute
key `"foo"` is NOT a no-op — the JS object spread
`{ ...field, [key]: value }` attaches the key to the matching field, so
the store changes. -/
theorem updateField_unknown_key_not_noop :
    handleFieldChange initialState (.num 1) "foo" (.num 0) ≠ initialState := by
  decide

/-- Claim C1, amended: `updateField` with an attribute key outside the
seven created attributes is not a no-op; it attaches that key/value to
every field whose id matches, leaving the known attributes of every
field, all non-matching fields, and the activation and background
unchanged. -/
theorem updateField_unknown_key_adds_extra (s : AppState) (id : JSValue)
    (k : String) (v : JSValue)
    (hk : k ∉ ["id", "text", "font", "color", "size", "x", "y"]) :
    (handleFieldChange s id k v).fields =
      s.fields.map (fun f =>
        if f.id == id then { f with extra := extraSet f.extra k v } else f) ∧
    (handleFieldChange s id k v).activeFieldId = s.activeFieldId ∧
    (handleFieldChange s id k v).imageUrl = s.imageUrl := by
  simp only [List.mem_cons, List.not_mem_nil, or_false, not_or] at hk
  obtain ⟨h1, h2, h3, h4, h5, h6, h7⟩ := hk
  have hset : ∀ f : TextField,
      f.setAttr k v = { f with extra := extraSet f.extra k v } := by
    intro f
    simp [TextField.setAttr, h1, h2, h3, h4, h5, h6, h7]
  refine ⟨?_, rfl, rfl⟩
  simp only [handleFieldChange, hset]

/-- Witness for `updateField_unknown_key_adds_extra` at the initial
state with key `"foo"`. -/
theorem updateField_unknown_key_adds_extra_witness :
    (handleFieldChange initialState (.num 1) "foo" (.num 0)).fields =
      initialState.fields.map (fun f =>
        if f.id == JSValue.num 1 then { f with extra := extraSet f.extra "foo" (.num 0) } else f) :=
  (updateField_unknown_key_adds_extra initialState (.num 1) "foo" (.num 0) (by decide)).1

/-- Claim C5: every way the background image source changes — template
selection, random template (with a non-empty gallery), or file
upload — leaves the active field id cleared to `none`. -/
theorem background_change_clears_active (s : AppState) (url : String)
    (idx : Nat) (f : UploadFile) (hm : s.allMemes ≠ []) :
    (handleSelectMeme s url).activeFieldId = none ∧
    (handleRandomMeme s idx).activeFieldId = none ∧
    ((handleImageUpload s (some f)).1).activeFieldId = none := by
  refine ⟨rfl, ?_, rfl⟩
  have hlen : s.allMemes.length ≠ 0 := fun h => hm (List.length_eq_zero.1 h)
  simp [handleRandomMeme, hlen, handleSelectMeme]

/-- A concrete state with a one-element gallery and an active field,
used to witness `background_change_clears_active`. -/
def galleryState : AppState :=
  { initialState with allMemes := ["https://x/y.jpg"], activeFieldId := some (.num 2) }

/-- Witness for `background_change_clears_active` at `galleryState`. -/
theorem background_change_clears_active_witness :
    (handleSelectMeme galleryState "u").activeFieldId = none ∧
    (handleRandomMeme galleryState 0).activeFieldId = none ∧
    ((handleImageUpload galleryState (some ⟨"a.png", "bytes"⟩)).1).activeFieldId = none :=
  background_change_clears_active galleryState "u" 0 ⟨"a.png", "bytes"⟩ (by decide)

/-- Claim C6: `removeField(id)` deletes every field carrying that id,
keeps every field with a different id, and afterwards the active field
id is `none` exactly when the removed id was the active one, and is
unchanged otherwise. -/
theorem removeField_deletes_and_clears_active (s : AppState) (id : JSValue) :
    (∀ f ∈ (handleDeleteField s id).fields, f.id ≠ id) ∧
    (∀ f ∈ s.fields, f.id ≠ id → f ∈ (handleDeleteField s id).fields) ∧
    (handleDeleteField s id).activeFieldId =
      (if s.activeFieldId = some id then none else s.activeFieldId) := by
  refine ⟨?_, ?_, rfl⟩
  · intro f hf
    have h := (List.mem_filter.1 hf).2
    simpa using h
  · intro f hf hne
    exact List.mem_filter.2 ⟨hf, by simpa using hne⟩

/-- Witness for `removeField_deletes_and_clears_active`: deleting the
active seed field 1 clears activation and keeps field 2. -/
theorem removeField_deletes_and_clears_active_witness :
    (handleDeleteField { initialState with activeFieldId := some (.num 1) }
        (.num 1)).activeFieldId =
      (if ({ initialState with activeFieldId := some (.num 1) } : AppState).activeFieldId =
          some (.num 1) then none
        else ({ initialState with activeFieldId := some (.num 1) } : AppState).activeFieldId) ∧
    initialFields.get ⟨1, by decide⟩ ∈
      (handleDeleteField { initialState with activeFieldId := some (.num 1) }
        (.num 1)).fields :=
  ⟨(removeField_deletes_and_clears_active _ (.num 1)).2.2,
   (removeField_deletes_and_clears_active _ (.num 1)).2.1 _ (by decide) (by decide)⟩

/-- Claim C9: `removeField` is total (defined for every id) and
idempotent on the whole state, removes every field whose id matches,
and with an id not present in the store it leaves the field list
unchanged. -/
theorem removeField_idempotent_total (s : AppState) (id : JSValue) :
    handleDeleteField (handleDeleteField s id) id = handleDeleteField s id ∧
    (∀ f ∈ (handleDeleteField s id).fields, f.id ≠ id) ∧
    ((∀ f ∈ s.fields, f.id ≠ id) → (handleDeleteField s id).fields = s.fields) := by
  refine ⟨?_, ?_, ?_⟩
  · have hfields :
        ((s.fields.filter (fun f => !(f.id == id))).filter (fun f => !(f.id == id))) =
          s.fields.filter (fun f => !(f.id == id)) := by
      rw [List.filter_filter]; simp
    by_cases h : s.activeFieldId = some id
    · simp [handleDeleteField, h, hfields]
    · simp [handleDeleteField, h, hfields]
  · intro f hf
    have h := (List.mem_filter.1 hf).2
    simpa using h
  · intro h
    simp only [handleDeleteField]
    rw [List.filter_eq_self]
    intro f hf
    simpa using h f hf

/-- Witness for `removeField_idempotent_total`: double deletion of seed
field 1 and deletion of the absent id 9 at the initial state. -/
theorem removeField_idempotent_total_witness :
    handleDeleteField (handleDeleteField initialState (.num 1)) (.num 1) =
      handleDeleteField initialState (.num 1) ∧
    (handleDeleteField initialState (.num 9)).fields = initialState.fields :=
  ⟨(removeField_idempotent_total initialState (.num 1)).1,
   (removeField_idempotent_total initialState (.num 9)).2.2 (by decide)⟩

/-- Claim C10: the upload handler with no file selected is a complete
no-op; with a file it synchronously clears the active field while the
background stays unchanged until the read completes, and the clearing
is independent of the read's outcome. -/
theorem imageUpload_no_file_noop (s : AppState) (f : UploadFile) :
    handleImageUpload s none = (s, none) ∧
    ((handleImageUpload s (some f)).1.activeFieldId = none ∧
     (handleImageUpload s (some f)).1.imageUrl = s.imageUrl ∧
     (handleImageUpload s (some f)).1.fields = s.fields ∧
     (handleImageUpload s (some f)).1.allMemes = s.allMemes) ∧
    (∀ dataUrl, (completeRead ((handleImageUpload s (some f)).1) dataUrl).activeFieldId = none) :=
  ⟨rfl, ⟨rfl, rfl, rfl, rfl⟩, fun _ => rfl⟩

/-- The ids of the fields currently in the store. -/
def fieldIds (l : List TextField) : List JSValue :=
  l.map TextField.id

/-- Removing an id from a store with pairwise-distinct ids shortens the
list by one exactly when the id is present. -/
theorem length_filter_remove (l : List TextField) (id : JSValue)
    (h : (fieldIds l).Nodup) :
    (l.filter (fun f => !(f.id == id))).length +
      (if l.any (fun f => f.id == id) then 1 else 0) = l.length := by
  induction l with
  | nil => simp
  | cons a rest ih =>
      have hmem : a.id ∉ fieldIds rest := (List.nodup_cons.1 h).1
      have hrest : (fieldIds rest).Nodup := (List.nodup_cons.1 h).2
      have ihr := ih hrest
      by_cases ha : a.id = id
      · subst ha
        have hfix : rest.filter (fun f => !(f.id == a.id)) = rest := by
          rw [List.filter_eq_self]
          intro f hf
          have : f.id ≠ a.id := by
            intro hfa
            exact hmem (hfa ▸ List.mem_map_of_mem TextField.id hf)
          simpa using this
        simp [List.filter_cons, List.any_cons, hfix]
      · have hbeq : (a.id == id) = false := by simpa using ha
        have hfc : (a :: rest).filter (fun f => !(f.id == id)) =
            a :: rest.filter (fun f => !(f.id == id)) := by
          simp [List.filter_cons, hbeq]
        have hac : (a :: rest).any (fun f => f.id == id) =
            rest.any (fun f => f.id == id) := by
          simp [List.any_cons, hbeq]
        rw [hfc, hac, List.length_cons, List.length_cons]
        omega

/-- The size-accounting and id-uniqueness invariant, generalized over
the starting state for the induction. -/
theorem runOps_invariant (ops : List FieldOp) (s : AppState)
    (hnd : (fieldIds s.fields).Nodup) (hfresh : freshAdds s ops = true) :
    (fieldIds (runOps s ops).fields).Nodup ∧
    (runOps s ops).fields.length + removeOkCount s ops =
      s.fields.length + addCount ops := by
  induction ops generalizing s with
  | nil => exact ⟨hnd, by simp [runOps, removeOkCount, addCount]⟩
  | cons op rest ih =>
      cases op with
      | add now =>
          have hsplit := hfresh
          simp only [freshAdds, Bool.and_eq_true] at hsplit
          have hnotin : JSValue.num now ∉ fieldIds s.fields := by
            intro hmem
            rcases List.mem_map.1 hmem with ⟨f, hf, hfid⟩
            have : s.fields.any (fun f => f.id == JSValue.num now) = true :=
              List.any_eq_true.2 ⟨f, hf, by simpa using hfid⟩
            simp [this] at hsplit
          have hnd' : (fieldIds (handleAddField s now).fields).Nodup := by
            simp only [handleAddField, fieldIds, List.map_append]
            rw [List.nodup_append]
            exact ⟨hnd, List.nodup_singleton _, by
              intro a ha hb
              simp only [List.map_cons, List.map_nil, List.mem_singleton] at hb
              exact hnotin (hb ▸ ha)⟩
          have := ih (s := handleAddField s now) hnd' hsplit.2
          refine ⟨this.1, ?_⟩
          have hlen : (handleAddField s now).fields.length = s.fields.length + 1 := by
            simp [handleAddField]
          have hadd : addCount (FieldOp.add now :: rest) = addCount rest + 1 := by
            simp [addCount, List.countP_cons]
          simp only [runOps, applyOp, removeOkCount] at this ⊢
          omega
      | remove id =>
          have hfresh' : freshAdds (handleDeleteField s id) rest = true := by
            simpa [freshAdds, applyOp] using hfresh
          have hsub : List.Sublist (fieldIds (handleDeleteField s id).fields)
              (fieldIds s.fields) := by
            simp only [handleDeleteField, fieldIds]
            exact (List.filter_sublist s.fields).map TextField.id
          have hnd' := hnd.sublist hsub
          have := ih (s := handleDeleteField s id) hnd' hfresh'
          refine ⟨this.1, ?_⟩
          have hlen := length_filter_remove s.fields id hnd
          have hrm : addCount (FieldOp.remove id :: rest) = addCount rest := by
            simp [addCount, List.countP_cons]
          simp only [runOps, applyOp, removeOkCount, handleDeleteField] at this ⊢
          by_cases hany : s.fields.any (fun f => f.id == id)
          · simp only [hany, if_pos] at hlen ⊢
            omega
          · simp only [hany] at hlen ⊢
            simp only [Bool.false_eq_true, if_false] at hlen ⊢
            omega

/-- Claim C2: for every well-clocked sequence of add/remove operations
from the initial two-field state, the store's size accounts exactly for
the adds and the successful removes, and all field ids are pairwise
distinct.  Quantifying over all traces covers every prefix, i.e. the
invariant holds after every step.  Well-clocked (`freshAdds`) models
`Date.now()` returning a value whose id is not currently live — the
property the source relies on for uniqueness. -/
theorem fieldStore_size_and_id_uniqueness (ops : List FieldOp)
    (hfresh : freshAdds initialState ops = true) :
    (fieldIds (runOps initialState ops).fields).Nodup ∧
    (runOps initialState ops).fields.length + removeOkCount initialState ops =
      initialState.fields.length + addCount ops :=
  runOps_invariant ops initialState (by decide) hfresh

/-- Witness for `fieldStore_size_and_id_uniqueness` on the trace
add 100, remove 1, remove 7 (the last remove misses). -/
theorem fieldStore_size_and_id_uniqueness_witness :
    (fieldIds (runOps initialState
        [.add 100, .remove (.num 1), .remove (.num 7)]).fields).Nodup ∧
    (runOps initialState [.add 100, .remove (.num 1), .remove (.num 7)]).fields.length +
        removeOkCount initialState [.add 100, .remove (.num 1), .remove (.num 7)] =
      initialState.fields.length + addCount [.add 100, .remove (.num 1), .remove (.num 7)] :=
  fieldStore_size_and_id_uniqueness [.add 100, .remove (.num 1), .remove (.num 7)] (by decide)

/-- Every script settles no later than the join point of
`Promise.all`. -/
theorem time_le_scriptsSettleTime (outs : List ScriptOutcome)
    (o : ScriptOutcome) (ho : o ∈ outs) :
    o.time ≤ scriptsSettleTime outs := by
  induction outs with
  | nil => cases ho
  | cons a rest ih =>
      rcases List.mem_cons.1 ho with rfl | hrest
      · exact le_max_left _ _
      · exact le_trans (ih hrest) (le_max_right _ _)

/-- Claim C3: the readiness flag is true only once every script has
loaded successfully and settled; if any single script load fails, the
error is logged and the flag is false at every instant of the process
lifetime (the effect runs once — empty dependency array — so no retry
can ever set it). -/
theorem scriptLoader_flag_iff_all_loaded (outs : List ScriptOutcome) (t : Nat) :
    (loaderFlag outs t = true → ∀ o ∈ outs, o.ok = true ∧ o.time ≤ t) ∧
    (∀ o ∈ outs, o.ok = false →
      (∀ u, loaderFlag outs u = false) ∧ loaderErrorLogged outs = true) := by
  constructor
  · intro hflag o ho
    rw [loaderFlag, Bool.and_eq_true] at hflag
    have hok := List.all_eq_true.1 hflag.1 o ho
    have hle : scriptsSettleTime outs ≤ t := of_decide_eq_true hflag.2
    exact ⟨hok, le_trans (time_le_scriptsSettleTime outs o ho) hle⟩
  · intro o ho hbad
    have hallok : scriptsAllOk outs = false := by
      cases hall : scriptsAllOk outs with
      | false => rfl
      | true =>
          have := List.all_eq_true.1 hall o ho
          rw [hbad] at this
          cases this
    refine ⟨fun u => ?_, ?_⟩
    · simp [loaderFlag, hallok]
    · simp [loaderErrorLogged, hallok]

/-- Witness for `scriptLoader_flag_iff_all_loaded`: a successful pair
of loads settles the flag by instant 9, and a failing third load pins
the flag to false forever and logs. -/
theorem scriptLoader_flag_iff_all_loaded_witness :
    (∀ o ∈ [ScriptOutcome.mk "a" 3 true, ScriptOutcome.mk "b" 5 true],
      o.ok = true ∧ o.time ≤ 9) ∧
    (∀ u, loaderFlag [ScriptOutcome.mk "a" 3 true, ScriptOutcome.mk "b" 5 false] u = false) ∧
    loaderErrorLogged [ScriptOutcome.mk "a" 3 true, ScriptOutcome.mk "b" 5 false] = true :=
  ⟨(scriptLoader_flag_iff_all_loaded [⟨"a", 3, true⟩, ⟨"b", 5, true⟩] 9).1 (by decide),
   ((scriptLoader_flag_iff_all_loaded [⟨"a", 3, true⟩, ⟨"b", 5, false⟩] 0).2
      ⟨"b", 5, false⟩ (by decide) rfl).1,
   ((scriptLoader_flag_iff_all_loaded [⟨"a", 3, true⟩, ⟨"b", 5, false⟩] 0).2
      ⟨"b", 5, false⟩ (by decide) rfl).2⟩

/-- Claim C4: with `html2canvas` present and the capture region
attached (the only states in which the export button is rendered), the
export trace clears the selection first, waits the fixed 150 ms settle
delay, captures with `useCORS` and a transparent background, and either
downloads `meme-<timestamp>.png` or, on capture failure, logs and never
downloads. -/
theorem exportImage_trace_spec (env : ExportEnv)
    (h1 : env.html2canvasLoaded = true) (h2 : env.memeRefPresent = true) :
    (env.captureOk = true →
      handleDownloadMeme env =
        [.clearActive, .settleDelay 150, .capture true none,
         .download ("meme-" ++ toString env.now ++ ".png")]) ∧
    (env.captureOk = false →
      handleDownloadMeme env =
        [.clearActive, .settleDelay 150, .capture true none,
         .logError "Canvas capture error:"] ∧
      ∀ fileName, ExportEvent.download fileName ∉ handleDownloadMeme env) := by
  constructor
  · intro hok
    simp [handleDownloadMeme, h1, h2, hok]
  · intro hbad
    have htr : handleDownloadMeme env =
        [.clearActive, .settleDelay 150, .capture true none,
         .logError "Canvas capture error:"] := by
      simp [handleDownloadMeme, h1, h2, hbad]
    refine ⟨htr, fun fileName hmem => ?_⟩
    rw [htr] at hmem
    simp at hmem

/-- Witness for `exportImage_trace_spec` in both capture outcomes at
timestamp 7. -/
theorem exportImage_trace_spec_witness :
    handleDownloadMeme ⟨true, true, true, 7⟩ =
      [.clearActive, .settleDelay 150, .capture true none, .download "meme-7.png"] ∧
    handleDownloadMeme ⟨true, true, false, 7⟩ =
      [.clearActive, .settleDelay 150, .capture true none,
       .logError "Canvas capture error:"] :=
  ⟨(exportImage_trace_spec ⟨true, true, true, 7⟩ rfl rfl).1 rfl,
   ((exportImage_trace_spec ⟨true, true, false, 7⟩ rfl rfl).2 rfl).1⟩

/-- Claim C8: the drag-release write-back touches exactly the store
entries whose id equals the id captured at attach time: such an entry
gets the behavior's final offsets while its id and every other
attribute survive, and every entry with a different id is byte-for-byte
unchanged at its position. -/
theorem dragEnd_updates_only_captured_field (fields : List TextField)
    (fid : JSValue) (nx ny : Int) (i : Nat) (f : TextField)
    (hf : fields[i]? = some f) :
    (onDragEnd fields fid nx ny).length = fields.length ∧
    (∀ (j : Nat) (g : TextField), fields[j]? = some g → g.id ≠ fid →
      (onDragEnd fields fid nx ny)[j]? = some g) ∧
    (f.id = fid →
      (onDragEnd fields fid nx ny)[i]? =
        some { f with x := .num nx, y := .num ny }) := by
  refine ⟨by simp [onDragEnd], ?_, ?_⟩
  · intro j g hg hne
    rw [onDragEnd, List.getElem?_map _ fields j, hg]
    have hbeq : (g.id == fid) = false := by simpa using hne
    rw [Option.map_some']
    rw [if_neg (by simp [hbeq])]
  · intro heq
    rw [onDragEnd, List.getElem?_map _ fields i, hf]
    have hbeq : (f.id == fid) = true := by simpa using heq
    rw [Option.map_some']
    rw [if_pos (by simp [hbeq])]

/-- Witness for `dragEnd_updates_only_captured_field`: releasing seed
field 1 at (7, 8) rewrites its position and leaves seed field 2 in
place. -/
theorem dragEnd_updates_only_captured_field_witness :
    (onDragEnd initialFields (.num 1) 7 8).length = initialFields.length ∧
    (onDragEnd initialFields (.num 1) 7 8)[1]? = initialFields[1]? ∧
    (onDragEnd initialFields (.num 1) 7 8)[0]? =
      some { id := .num 1, text := .str "One does not simply", font := .str "Anton",
             color := .str "#ffffff", size := .num 40, x := .num 7, y := .num 8,
             extra := [] } := by
  have h := dragEnd_updates_only_captured_field initialFields (.num 1) 7 8 0
    (initialFields.get ⟨0, by decide⟩) (by decide)
  exact ⟨h.1,
    (h.2.1 1 (initialFields.get ⟨1, by decide⟩) (by decide) (by decide)).trans (by decide),
    (h.2.2 (by decide)).trans (by decide)⟩

/-- Attach order follows field-array order: the created instances carry
exactly the index selectors `0 .. N-1`. -/
theorem mkInstances_selectors (fields : List TextField) :
    (mkInstances fields).map DragInstance.selectorIndex = List.range fields.length ∧
    (mkInstances fields).length = fields.length := by
  constructor
  · rw [mkInstances, List.map_map]
    have : (DragInstance.selectorIndex ∘ fun p : Nat × TextField =>
        { selectorIndex := p.1, fieldId := p.2.id }) = Prod.fst := rfl
    rw [this, List.enum_map_fst]
  · rw [mkInstances, List.length_map, List.enum_length]

/-- The invariant carried between renders: whenever the previously
observed dependency triple says the libraries were loaded, the live
pool holds exactly one behavior per field index of that render. -/
def GoodPrev (w : DragWorld) (d : Option (Nat × String × Bool)) : Prop :=
  ∀ n url, d = some (n, url, true) →
    w.alive.map DragInstance.selectorIndex = List.range n ∧ w.alive.length = n

/-- Induction workhorse for claim C7: processing any render sequence
from a pool satisfying the invariant leaves, at a final render with the
libraries loaded, exactly one live behavior per field. -/
theorem runRenders_alive_spec (rs : List RenderState) (w : DragWorld)
    (d : Option (Nat × String × Bool)) (hw : GoodPrev w d)
    (r : RenderState) (hlast : rs.getLast? = some r) (hloaded : r.loaded = true) :
    (runRenders w d rs).alive.map DragInstance.selectorIndex =
      List.range r.fields.length ∧
    (runRenders w d rs).alive.length = r.fields.length := by
  induction rs generalizing w d with
  | nil => cases hlast
  | cons r0 rest ih =>
      have hw' : GoodPrev (if d = some (dragDeps r0) then w
          else runDragEffect w r0.loaded r0.fields) (some (dragDeps r0)) := by
        intro n url hd
        have hdep : dragDeps r0 = (n, url, true) := Option.some.inj hd
        have hl0 : r0.loaded = true := congrArg (fun p => p.2.2) hdep
        have hn : r0.fields.length = n := congrArg (fun p => p.1) hdep
        by_cases hp : d = some (dragDeps r0)
        · rw [if_pos hp]
          exact hw n url (hp.trans hd)
        · rw [if_neg hp, runDragEffect, if_pos hl0]
          have hmk := mkInstances_selectors r0.fields
          exact ⟨hn ▸ hmk.1, hn ▸ hmk.2⟩
      cases rest with
      | nil =>
          have hr : r0 = r := Option.some.inj hlast
          subst hr
          have := hw' r0.fields.length r0.imageUrl (by rw [dragDeps, hloaded])
          simpa [runRenders] using this
      | cons r1 rest' =>
          have hlast' : (r1 :: rest').getLast? = some r := by
            rw [List.getLast?_cons_cons] at hlast
            exact hlast
          have := ih (w := if d = some (dragDeps r0) then w
              else runDragEffect w r0.loaded r0.fields)
            (d := some (dragDeps r0)) hw' hlast'
          simpa [runRenders] using this

/-- Claim C7: one effect run with the libraries loaded kills every
previously live behavior and creates exactly one behavior per field in
field order; consequently, over any render sequence — the effect
re-running exactly when the dependency triple (field count, background
url, readiness) changes — a final loaded render leaves exactly N live
behaviors for its N fields and no leaked live behavior besides them. -/
theorem dragSync_rebuild_exact_instances (w : DragWorld) (fields : List TextField)
    (rs : List RenderState) (r : RenderState)
    (hlast : rs.getLast? = some r) (hloaded : r.loaded = true) :
    ((runDragEffect w true fields).killed = w.killed ++ w.alive ∧
     (runDragEffect w true fields).alive = mkInstances fields ∧
     (mkInstances fields).map DragInstance.selectorIndex = List.range fields.length ∧
     (mkInstances fields).length = fields.length) ∧
    ((runRenders initialDragWorld none rs).alive.map DragInstance.selectorIndex =
       List.range r.fields.length ∧
     (runRenders initialDragWorld none rs).alive.length = r.fields.length) := by
  refine ⟨⟨rfl, rfl, (mkInstances_selectors fields).1, (mkInstances_selectors fields).2⟩, ?_⟩
  exact runRenders_alive_spec rs initialDragWorld none (fun _ _ h => nomatch h) r hlast hloaded

/-- A third field as `handleAddField` would create it, for the C7
witness trace. -/
def demoField : TextField :=
  { id := .num 100, text := .str "New Text", font := .str "Anton",
    color := .str "#ffffff", size := .num 40, x := .num 150, y := .num 150, extra := [] }

/-- Witness render sequence: mount before the libraries load, the
loading transition, then an added field. -/
def demoRenders : List RenderState :=
  [ { fields := initialFields, imageUrl := INITIAL_IMAGE_URL, loaded := false },
    { fields := initialFields, imageUrl := INITIAL_IMAGE_URL, loaded := true },
    { fields := initialFields ++ [demoField], imageUrl := INITIAL_IMAGE_URL, loaded := true } ]

/-- The last render of `demoRenders`. -/
def demoLast : RenderState :=
  { fields := initialFields ++ [demoField], imageUrl := INITIAL_IMAGE_URL, loaded := true }

/-- Witness for `dragSync_rebuild_exact_instances` on `demoRenders`. -/
theorem dragSync_rebuild_exact_instances_witness :
    ((runDragEffect { alive := [⟨0, .num 1⟩], killed := [] } true initialFields).killed =
        ([] : List DragInstance) ++ [⟨0, .num 1⟩] ∧
     (runDragEffect { alive := [⟨0, .num 1⟩], killed := [] } true initialFields).alive =
        mkInstances initialFields ∧
     (mkInstances initialFields).map DragInstance.selectorIndex =
        List.range initialFields.length ∧
     (mkInstances initialFields).length = initialFields.length) ∧
    ((runRenders initialDragWorld none demoRenders).alive.map DragInstance.selectorIndex =
       List.range demoLast.fields.length ∧
     (runRenders initialDragWorld none demoRenders).alive.length = demoLast.fields.length) :=
  dragSync_rebuild_exact_instances { alive := [⟨0, .num 1⟩], killed := [] }
    initialFields demoRenders demoLast rfl rfl
